import Mathlib

/-!
Verification of the YAML-to-database sync script (`scripts/sync_db.py`).

The script scans a directory of YAML files, classifies each parsed document
as a product record, a filter-keyword record, or unrecognized, and reconciles
the records into four relational tables inside one transaction.

This file shallowly embeds the script: parsed YAML documents become the
inductive `Yaml` (Python `None` is `Yaml.null`), the database becomes a
record of lists of rows, and each Python function becomes a Lean function of
the same name.  Storage errors that the Python code catches with `except`
are modelled by per-operation failure flags carried on each input file.
-/

set_option autoImplicit false

/-- A parsed YAML document / generic Python value.  Python `None` (both the
result of a failed parse and the YAML null document) is `Yaml.null`. -/
inductive Yaml where
  | null
  | bool (b : Bool)
  | int (n : Int)
  | str (s : String)
  | list (xs : List Yaml)
  | map (kvs : List (String × Yaml))

mutual

def Yaml.beq : Yaml → Yaml → Bool
  | .null, .null => true
  | .bool a, .bool b => a == b
  | .int a, .int b => a == b
  | .str a, .str b => a == b
  | .list xs, .list ys => Yaml.beqList xs ys
  | .map xs, .map ys => Yaml.beqMap xs ys
  | _, _ => false

def Yaml.beqList : List Yaml → List Yaml → Bool
  | [], [] => true
  | x :: xs, y :: ys => Yaml.beq x y && Yaml.beqList xs ys
  | _, _ => false

def Yaml.beqMap : List (String × Yaml) → List (String × Yaml) → Bool
  | [], [] => true
  | (k1, v1) :: xs, (k2, v2) :: ys => k1 == k2 && Yaml.beq v1 v2 && Yaml.beqMap xs ys
  | _, _ => false

end

mutual

theorem Yaml.beq_iff : ∀ a b : Yaml, (Yaml.beq a b = true) ↔ a = b
  | .null, .null => by simp [Yaml.beq]
  | .null, .bool _ => by simp [Yaml.beq]
  | .null, .int _ => by simp [Yaml.beq]
  | .null, .str _ => by simp [Yaml.beq]
  | .null, .list _ => by simp [Yaml.beq]
  | .null, .map _ => by simp [Yaml.beq]
  | .bool _, .null => by simp [Yaml.beq]
  | .bool _, .bool _ => by simp [Yaml.beq]
  | .bool _, .int _ => by simp [Yaml.beq]
  | .bool _, .str _ => by simp [Yaml.beq]
  | .bool _, .list _ => by simp [Yaml.beq]
  | .bool _, .map _ => by simp [Yaml.beq]
  | .int _, .null => by simp [Yaml.beq]
  | .int _, .bool _ => by simp [Yaml.beq]
  | .int _, .int _ => by simp [Yaml.beq]
  | .int _, .str _ => by simp [Yaml.beq]
  | .int _, .list _ => by simp [Yaml.beq]
  | .int _, .map _ => by simp [Yaml.beq]
  | .str _, .null => by simp [Yaml.beq]
  | .str _, .bool _ => by simp [Yaml.beq]
  | .str _, .int _ => by simp [Yaml.beq]
  | .str _, .str _ => by simp [Yaml.beq]
  | .str _, .list _ => by simp [Yaml.beq]
  | .str _, .map _ => by simp [Yaml.beq]
  | .list _, .null => by simp [Yaml.beq]
  | .list _, .bool _ => by simp [Yaml.beq]
  | .list _, .int _ => by simp [Yaml.beq]
  | .list _, .str _ => by simp [Yaml.beq]
  | .list xs, .list ys => by simpa [Yaml.beq] using Yaml.beqList_iff xs ys
  | .list _, .map _ => by simp [Yaml.beq]
  | .map _, .null => by simp [Yaml.beq]
  | .map _, .bool _ => by simp [Yaml.beq]
  | .map _, .int _ => by simp [Yaml.beq]
  | .map _, .str _ => by simp [Yaml.beq]
  | .map _, .list _ => by simp [Yaml.beq]
  | .map xs, .map ys => by simpa [Yaml.beq] using Yaml.beqMap_iff xs ys

theorem Yaml.beqList_iff : ∀ xs ys : List Yaml, (Yaml.beqList xs ys = true) ↔ xs = ys
  | [], [] => by simp [Yaml.beqList]
  | [], _ :: _ => by simp [Yaml.beqList]
  | _ :: _, [] => by simp [Yaml.beqList]
  | x :: xs, y :: ys => by
      simp [Yaml.beqList, Yaml.beq_iff x y, Yaml.beqList_iff xs ys]

theorem Yaml.beqMap_iff :
    ∀ xs ys : List (String × Yaml), (Yaml.beqMap xs ys = true) ↔ xs = ys
  | [], [] => by simp [Yaml.beqMap]
  | [], _ :: _ => by simp [Yaml.beqMap]
  | _ :: _, [] => by simp [Yaml.beqMap]
  | (k1, v1) :: xs, (k2, v2) :: ys => by
      simp [Yaml.beqMap, Yaml.beq_iff v1 v2, Yaml.beqMap_iff xs ys, and_assoc]

end

instance : DecidableEq Yaml := fun a b =>
  decidable_of_iff (Yaml.beq a b = true) (Yaml.beq_iff a b)

/-- Key lookup in a mapping, first match wins (Python `d.get(k)` /
`d[k]`-with-caught-`KeyError`); `none` on non-mappings (Python raises there,
and every caller catches). -/
def lookupKey (k : String) : List (String × Yaml) → Option Yaml
  | [] => none
  | (k', v) :: rest => if k' = k then some v else lookupKey k rest

def Yaml.get : Yaml → String → Option Yaml
  | .map kvs, k => lookupKey k kvs
  | _, _ => none

/-- The key list of a mapping (Python `data.keys()`); empty for
non-mappings. -/
def Yaml.keys : Yaml → List String
  | .map kvs => kvs.map Prod.fst
  | _ => []

/-- Python `isinstance(data, dict)`. -/
def Yaml.isDict : Yaml → Bool
  | .map _ => true
  | _ => false

/-- Python truthiness of a value (used by `aliases or []` etc.). -/
def Yaml.truthy : Yaml → Bool
  | .null => false
  | .bool b => b
  | .int n => n != 0
  | .str s => s != ""
  | .list xs => !xs.isEmpty
  | .map kvs => !kvs.isEmpty

/-- Python iteration over a value: lists yield their elements, strings yield
their characters, dicts yield their keys; other values raise `TypeError`
(modelled as `none`; every caller catches the exception). -/
def Yaml.iterate : Yaml → Option (List Yaml)
  | .list xs => some xs
  | .str s => some (s.data.map (fun c => Yaml.str (String.mk [c])))
  | .map kvs => some (kvs.map (fun kv => Yaml.str kv.1))
  | _ => none

/-! ## File classification (`is_product_yaml`, `is_filter_yaml`) -/

def required_top : List String :=
  ["brand", "model", "full_name", "category", "pricing", "active"]

def required_pricing : List String := ["buy_min", "buy_max", "sell_target"]

/-- `is_product_yaml` from the script: the structure is a mapping containing
all required top-level keys, and its `pricing` value is a mapping containing
all required pricing keys (the early `return False`s become `&&`). -/
def is_product_yaml (data : Yaml) : Bool :=
  data.isDict && (required_top.all fun k => data.keys.contains k) &&
    match data.get "pricing" with
    | some pricing =>
        pricing.isDict && (required_pricing.all fun k => pricing.keys.contains k)
    | none => false

/-- `is_filter_yaml` from the script: a mapping whose `keywords` value is a
list. -/
def is_filter_yaml (data : Yaml) : Bool :=
  data.isDict &&
    match data.get "keywords" with
    | some (.list _) => true
    | _ => false

/-- The record kind the main loop assigns to a parsed document. -/
inductive Kind where
  | product
  | filter
  | unrecognized
  deriving DecidableEq

/-- The classification order of the main loop: the product test runs first,
then the filter test. -/
def classify (data : Yaml) : Kind :=
  if is_product_yaml data then .product
  else if is_filter_yaml data then .filter
  else .unrecognized

/-! ## Filter-type inference from the file path (`infer_filter_type`) -/

/-- A file path, as the pieces `infer_filter_type` consumes: the file's own
name (Python `filepath.name`) and the names of all its parents, nearest
first (Python `filepath.parents`). -/
structure FPath where
  name : String
  parentNames : List String
  deriving DecidableEq

/-- `needle` is an initial segment of `hay` (character-exact). -/
def leadsWith : List Char → List Char → Bool
  | [], _ => true
  | _ :: _, [] => false
  | c :: cs, d :: ds => c == d && leadsWith cs ds

/-- Python's substring test `needle in hay`. -/
def occursIn (needle : List Char) : List Char → Bool
  | [] => leadsWith needle []
  | c :: rest => leadsWith needle (c :: rest) || occursIn needle rest

/-- Python `" ".join(parts)`. -/
def joinSpace : List (List Char) → List Char
  | [] => []
  | [x] => x
  | x :: y :: rest => x ++ ' ' :: joinSpace (y :: rest)

/-- Python `s.lower()`, as the character list of the result. -/
def lowerChars (s : String) : List Char := s.data.map Char.toLower

/-- The components whose names `infer_filter_type` inspects. -/
def FPath.components (p : FPath) : List String := p.name :: p.parentNames

/-- The lowercased space-joined haystack built by `infer_filter_type`. -/
def haystackOf (p : FPath) : List Char :=
  joinSpace (p.components.map lowerChars)

/-- `infer_filter_type` from the script: search the haystack for the literal
substrings `"reject"` then `"boost"`. -/
def infer_filter_type (p : FPath) : Option String :=
  if occursIn "reject".data (haystackOf p) then some "reject"
  else if occursIn "boost".data (haystackOf p) then some "boost"
  else none

/-! ## Database model

Four tables as lists of rows, plus the id sequence for `products.id`.
Postgres `SERIAL` ids start at 1, hence `nextId` is initialised to 1 in
well-formed states; timestamps are abstract `Nat` clock readings. -/

structure ProductRow where
  id : Nat
  brand : Yaml
  model : Yaml
  full_name : Yaml
  category : Yaml
  buy_price_min : Yaml
  buy_price_max : Yaml
  sell_target : Yaml
  active : Yaml
  created_at : Nat
  updated_at : Nat
  deriving DecidableEq

structure FilterRow where
  keyword : Yaml
  filter_type : String
  description : Yaml
  deriving DecidableEq

structure DB where
  products : List ProductRow
  product_aliases : List (Nat × Yaml)
  product_fuzzy_patterns : List (Nat × Yaml)
  filter_keywords : List FilterRow
  nextId : Nat
  deriving DecidableEq

/-- One console line the script prints, with the identifying data it
interpolates into the message. -/
inductive LogEntry where
  | readError (path : FPath)
  | upsertProductError (brand model : Option Yaml)
  | aliasSyncError (productId : Nat)
  | fuzzySyncError (productId : Nat)
  | keywordSyncError (filterType : String)
  | syncedProduct (brand model : Yaml) (path : FPath)
  | skippedFilterUnknownType (path : FPath)
  | syncedKeywords (filterType : String) (count : Nat) (path : FPath)
  | skippedUnknownSchema (path : FPath)
  deriving DecidableEq

/-! ## `upsert_product` -/

/-- The values `upsert_product` extracts from the parsed document to bind
into its INSERT statement. -/
structure ProductFields where
  brand : Yaml
  model : Yaml
  full_name : Yaml
  category : Yaml
  buy_min : Yaml
  buy_max : Yaml
  sell_target : Yaml
  active : Yaml
  deriving DecidableEq

/-- Building the statement parameters: `product_data["brand"]` etc. raise
`KeyError` on a missing key and `pricing.get` raises unless `pricing` is a
mapping; the surrounding `except` catches these, modelled as `none`. -/
def extractProductFields (data : Yaml) : Option ProductFields :=
  match data.get "brand", data.get "model", data.get "full_name",
        data.get "category", data.get "pricing" with
  | some brand, some model, some fname, some cat, some pricing =>
      if pricing.isDict then
        some { brand := brand, model := model, full_name := fname, category := cat,
               buy_min := (pricing.get "buy_min").getD .null,
               buy_max := (pricing.get "buy_max").getD .null,
               sell_target := (pricing.get "sell_target").getD .null,
               active := (data.get "active").getD (.bool true) }
      else none
  | _, _, _, _, _ => none

/-- The row hit by the `ON CONFLICT (brand, model)` unique index. -/
def rowKeyMatches (b m : Yaml) (r : ProductRow) : Bool :=
  decide (r.brand = b ∧ r.model = m)

/-- `DO UPDATE SET ...`: overwrite the non-identity columns and bump
`updated_at`; `id`, `brand`, `model`, `created_at` are untouched. -/
def applyProductUpdate (now : Nat) (f : ProductFields) (r : ProductRow) : ProductRow :=
  { r with full_name := f.full_name, category := f.category,
           buy_price_min := f.buy_min, buy_price_max := f.buy_max,
           sell_target := f.sell_target, active := f.active, updated_at := now }

/-- A freshly inserted row. -/
def newProductRow (id now : Nat) (f : ProductFields) : ProductRow :=
  { id := id, brand := f.brand, model := f.model, full_name := f.full_name,
    category := f.category, buy_price_min := f.buy_min, buy_price_max := f.buy_max,
    sell_target := f.sell_target, active := f.active,
    created_at := now, updated_at := now }

/-- The `INSERT ... ON CONFLICT (brand, model) DO UPDATE ... RETURNING id`
statement: returns the id, the new table, and the next free id. -/
def upsertProductRows (tbl : List ProductRow) (nextId now : Nat) (f : ProductFields) :
    Nat × List ProductRow × Nat :=
  match tbl.find? (rowKeyMatches f.brand f.model) with
  | some r =>
      (r.id,
       tbl.map fun q => if rowKeyMatches f.brand f.model q
                        then applyProductUpdate now f q else q,
       nextId)
  | none => (nextId, tbl ++ [newProductRow nextId now f], nextId + 1)

/-- `upsert_product` from the script.  `fails` models the statement raising a
storage error; the `except` block logs brand and model (via `.get`) and
returns `None`. -/
def upsert_product (fails : Bool) (db : DB) (now : Nat) (data : Yaml) :
    Option Nat × DB × Option LogEntry :=
  match extractProductFields data with
  | none => (none, db, some (.upsertProductError (data.get "brand") (data.get "model")))
  | some f =>
      if fails then
        (none, db, some (.upsertProductError (data.get "brand") (data.get "model")))
      else
        let (pid, tbl, nid) := upsertProductRows db.products db.nextId now f
        (some pid, { db with products := tbl, nextId := nid }, none)

/-! ## Child-collection sync (`sync_aliases`, `sync_fuzzy_patterns`) -/

/-- `sync_aliases` from the script: DELETE all rows of the product, then
INSERT one row per element of `aliases or []`.  A storage failure at the
first statement (`fails`) leaves the table unchanged; a `TypeError` from
iterating a non-iterable truthy value happens after the DELETE. Either way
the `except` logs the product id. -/
def sync_aliases (fails : Bool) (db : DB) (product_id : Nat) (aliases : Yaml) :
    DB × Option LogEntry :=
  if fails then (db, some (.aliasSyncError product_id))
  else
    let db1 := { db with
      product_aliases := db.product_aliases.filter fun r => r.1 != product_id }
    let items := if aliases.truthy then aliases else .list []
    match items.iterate with
    | some xs =>
        ({ db1 with product_aliases :=
            db1.product_aliases ++ xs.map fun a => (product_id, a) }, none)
    | none => (db1, some (.aliasSyncError product_id))

/-- `sync_fuzzy_patterns` from the script; same shape as `sync_aliases`. -/
def sync_fuzzy_patterns (fails : Bool) (db : DB) (product_id : Nat) (patterns : Yaml) :
    DB × Option LogEntry :=
  if fails then (db, some (.fuzzySyncError product_id))
  else
    let db1 := { db with
      product_fuzzy_patterns := db.product_fuzzy_patterns.filter fun r => r.1 != product_id }
    let items := if patterns.truthy then patterns else .list []
    match items.iterate with
    | some xs =>
        ({ db1 with product_fuzzy_patterns :=
            db1.product_fuzzy_patterns ++ xs.map fun a => (product_id, a) }, none)
    | none => (db1, some (.fuzzySyncError product_id))

/-! ## `sync_filter_keywords` -/

/-- The row hit by the `ON CONFLICT (keyword, filter_type)` unique index. -/
def keywordKeyMatches (kw : Yaml) (ftype : String) (r : FilterRow) : Bool :=
  decide (r.keyword = kw ∧ r.filter_type = ftype)

/-- One `INSERT ... ON CONFLICT (keyword, filter_type) DO UPDATE SET
description` statement. -/
def upsertKeywordRow (tbl : List FilterRow) (kw : Yaml) (ftype : String) (desc : Yaml) :
    List FilterRow :=
  if tbl.any (keywordKeyMatches kw ftype) then
    tbl.map fun r => if keywordKeyMatches kw ftype r
                     then { r with description := desc } else r
  else tbl ++ [{ keyword := kw, filter_type := ftype, description := desc }]

/-- `sync_filter_keywords` from the script: upsert each element of
`keywords or []` with the file's `description or ""`; no DELETE anywhere.
`fails` models a storage error at the first statement; iterating a
non-iterable truthy `keywords` raises before any write. -/
def sync_filter_keywords (fails : Bool) (db : DB) (filter_data : Yaml)
    (filter_type : String) : DB × Option LogEntry :=
  if fails then (db, some (.keywordSyncError filter_type))
  else
    let keywords0 := (filter_data.get "keywords").getD (.list [])
    let keywords := if keywords0.truthy then keywords0 else .list []
    let description0 := (filter_data.get "description").getD (.str "")
    let description := if description0.truthy then description0 else .str ""
    match keywords.iterate with
    | some kws =>
        let tbl := kws.foldl
          (fun tbl kw => upsertKeywordRow tbl kw filter_type description)
          db.filter_keywords
        ({ db with filter_keywords := tbl }, none)
    | none => (db, some (.keywordSyncError filter_type))

/-! ## The main loop (`main`) -/

structure Counters where
  products_synced : Nat
  filter_keywords_synced : Nat
  skipped : Nat
  errors : Nat
  deriving DecidableEq

def Counters.zero : Counters := ⟨0, 0, 0, 0⟩

instance {ε α : Type _} [DecidableEq ε] [DecidableEq α] : DecidableEq (Except ε α)
  | .ok a, .ok b => decidable_of_iff (a = b) (by simp)
  | .ok _, .error _ => isFalse (by simp)
  | .error _, .ok _ => isFalse (by simp)
  | .error a, .error b => decidable_of_iff (a = b) (by simp)

/-- One discovered `*.yml` file: its path, the outcome of parsing its
content (`.error ()` = the parser raised), and flags saying which of its
storage operations raise errors (`…Fails` are caught per record,
`raisesUnhandled` escapes the dispatch loop). -/
structure YFile where
  path : FPath
  parse : Except Unit Yaml
  upsertFails : Bool
  aliasFails : Bool
  fuzzyFails : Bool
  keywordFails : Bool
  raisesUnhandled : Bool
  deriving DecidableEq

/-- `load_yaml_file` from the script: a parse exception is caught, logged
and turned into `None` — exactly the value the null document parses to. -/
def load_yaml_file (parse : Except Unit Yaml) : Yaml :=
  match parse with
  | .ok data => data
  | .error _ => .null

/-- `len(data.get("keywords", []) or [])` from the main loop. -/
def keywordListLen (data : Yaml) : Nat :=
  let kw0 := (data.get "keywords").getD (.list [])
  let kw := if kw0.truthy then kw0 else .list []
  match kw.iterate with
  | some xs => xs.length
  | none => 0

structure LoopState where
  db : DB
  counters : Counters
  log : List LogEntry
  deriving DecidableEq

/-- The body of the per-file dispatch loop in `main`. -/
def processFile (now : Nat) (st : LoopState) (f : YFile) : LoopState :=
  let data := load_yaml_file f.parse
  let log := st.log ++ match f.parse with
    | .error _ => [.readError f.path]
    | .ok _ => []
  if data = .null then
    { st with counters := { st.counters with errors := st.counters.errors + 1 },
              log := log }
  else if is_product_yaml data then
    match upsert_product f.upsertFails st.db now data with
    | (pid?, db1, uLog) =>
      let log := log ++ uLog.toList
      match pid? with
      | some pid =>
          if pid ≠ 0 then
            let (db2, aLog) :=
              sync_aliases f.aliasFails db1 pid ((data.get "aliases").getD (.list []))
            let (db3, fLog) :=
              sync_fuzzy_patterns f.fuzzyFails db2 pid
                ((data.get "fuzzy_patterns").getD (.list []))
            { db := db3,
              counters := { st.counters with
                products_synced := st.counters.products_synced + 1 },
              log := log ++ aLog.toList ++ fLog.toList ++
                [.syncedProduct ((data.get "brand").getD .null)
                  ((data.get "model").getD .null) f.path] }
          else
            { db := db1,
              counters := { st.counters with errors := st.counters.errors + 1 },
              log := log }
      | none =>
          { db := db1,
            counters := { st.counters with errors := st.counters.errors + 1 },
            log := log }
  else if is_filter_yaml data then
    match infer_filter_type f.path with
    | none =>
        { st with counters := { st.counters with skipped := st.counters.skipped + 1 },
                  log := log ++ [.skippedFilterUnknownType f.path] }
    | some ftype =>
        let (db2, kLog) := sync_filter_keywords f.keywordFails st.db data ftype
        let count := keywordListLen data
        { db := db2,
          counters := { st.counters with
            filter_keywords_synced := st.counters.filter_keywords_synced + count },
          log := log ++ kLog.toList ++ [.syncedKeywords ftype count f.path] }
  else
    { st with counters := { st.counters with skipped := st.counters.skipped + 1 },
              log := log ++ [.skippedUnknownSchema f.path] }

/-- The dispatch loop: an unhandled exception while processing a file
escapes with the state staged so far (`.error`); otherwise fold on. -/
def processFiles (now : Nat) : LoopState → List YFile → Except LoopState LoopState
  | st, [] => .ok st
  | st, f :: fs =>
      if f.raisesUnhandled then .error st
      else processFiles now (processFile now st f) fs

/-- Startup configuration and inputs of one run. -/
structure RunConfig where
  databaseUrl : Option String
  rootExists : Bool
  connectOk : Bool
  files : List YFile

/-- Observable outcome of a run: the process exit status and the database
state visible after commit or rollback. -/
structure RunResult where
  exitCode : Nat
  db : DB
  counters : Counters
  log : List LogEntry
  deriving DecidableEq

/-- Python `if not DATABASE_URL` — `os.getenv` returns `None` or a string,
and the empty string is falsy. -/
def strTruthy : Option String → Bool
  | none => false
  | some s => s != ""

/-- The whole script: the module-level `DATABASE_URL` guard (exit 1), the
`Products/` existence guard in `main` (exit 0, before connecting), the
connection attempt (exit 1 on failure), then the dispatch loop; on normal
completion the transaction commits and the process exits 0, and an
unhandled exception rolls the whole transaction back (the database reverts
to `db0`) and exits 1. -/
def runScript (cfg : RunConfig) (db0 : DB) (now : Nat) : RunResult :=
  if !strTruthy cfg.databaseUrl then ⟨1, db0, Counters.zero, []⟩
  else if !cfg.rootExists then ⟨0, db0, Counters.zero, []⟩
  else if !cfg.connectOk then ⟨1, db0, Counters.zero, []⟩
  else
    match processFiles now ⟨db0, Counters.zero, []⟩ cfg.files with
    | .ok st => ⟨0, st.db, st.counters, st.log⟩
    | .error st => ⟨1, db0, st.counters, st.log⟩

/-! ## Concrete objects used by witnesses and counterexamples -/

/-- An empty database; `SERIAL` id sequences start at 1. -/
def emptyDB : DB :=
  { products := [], product_aliases := [], product_fuzzy_patterns := [],
    filter_keywords := [], nextId := 1 }

def pPath : FPath := ⟨"cam.yml", ["Products", ""]⟩

def rejectPath : FPath := ⟨"bad.yml", ["reject_filters", "Products", ""]⟩

/-- A file whose parse succeeded and whose storage operations all succeed. -/
def okFile (path : FPath) (d : Yaml) : YFile :=
  ⟨path, .ok d, false, false, false, false, false⟩

def productDoc : Yaml := .map
  [("brand", .str "Canon"), ("model", .str "R5"),
   ("full_name", .str "Canon EOS R5"), ("category", .str "camera"),
   ("pricing", .map [("buy_min", .int 1000), ("buy_max", .int 1500),
                     ("sell_target", .int 2000)]),
   ("active", .bool true)]

def filterDoc : Yaml := .map
  [("keywords", .list [.str "broken", .str "spares"]),
   ("description", .str "damaged items")]

/-- Removing one key from a mapping (non-mappings are unchanged). -/
def removeTopKey (D : Yaml) (k : String) : Yaml :=
  match D with
  | .map kvs => .map (kvs.filter fun kv => kv.1 != k)
  | other => other

/-- Removing one subkey from the `pricing` value of a mapping. -/
def removePricingKey (D : Yaml) (k : String) : Yaml :=
  match D with
  | .map kvs => .map (kvs.map fun kv =>
      if kv.1 = "pricing" then (kv.1, removeTopKey kv.2 k) else kv)
  | other => other

/-! ## Classifier characterizations -/

theorem not_mem_keys_removeTopKey (v : Yaml) (k : String) :
    k ∉ (removeTopKey v k).keys := by
  cases v with
  | map kvs =>
      intro hk
      simp only [removeTopKey, Yaml.keys, List.mem_map] at hk
      rcases hk with ⟨kv, hmem, hfst⟩
      rcases List.mem_filter.mp hmem with ⟨_, hne⟩
      exact (bne_iff_ne.mp hne) hfst
  | null => simp [removeTopKey, Yaml.keys]
  | bool b => simp [removeTopKey, Yaml.keys]
  | int n => simp [removeTopKey, Yaml.keys]
  | str s => simp [removeTopKey, Yaml.keys]
  | list xs => simp [removeTopKey, Yaml.keys]

theorem lookupKey_map_modify (kk : String) (g : Yaml → Yaml) :
    ∀ kvs : List (String × Yaml),
      lookupKey kk (kvs.map fun kv => if kv.1 = kk then (kv.1, g kv.2) else kv)
        = (lookupKey kk kvs).map g
  | [] => rfl
  | (k1, v1) :: rest => by
      have hmap : (((k1, v1) :: rest).map fun kv => if kv.1 = kk then (kv.1, g kv.2) else kv)
          = (if k1 = kk then (k1, g v1) else (k1, v1)) ::
            (rest.map fun kv => if kv.1 = kk then (kv.1, g kv.2) else kv) := by
        simp
      rw [hmap]
      by_cases h : k1 = kk
      · subst h
        rw [if_pos rfl]
        simp [lookupKey]
      · rw [if_neg h]
        simp [lookupKey, h, lookupKey_map_modify kk g rest]

/-- `is_product_yaml` in the spec's vocabulary: a mapping with all required
top-level keys whose `pricing` value is a mapping with all required pricing
subkeys. -/
theorem is_product_yaml_iff (D : Yaml) :
    is_product_yaml D = true ↔
      (D.isDict = true ∧ (∀ k ∈ required_top, k ∈ D.keys) ∧
       ∃ p, D.get "pricing" = some p ∧ p.isDict = true ∧
         ∀ k ∈ required_pricing, k ∈ p.keys) := by
  cases hp : D.get "pricing" with
  | none => simp [is_product_yaml, hp]
  | some p =>
      cases hpd : p.isDict with
      | false => simp [is_product_yaml, hp, hpd]
      | true => simp [is_product_yaml, hp, hpd, List.all_eq_true, List.contains, and_assoc]

/-- `is_filter_yaml` in the spec's vocabulary: a mapping whose `keywords`
value is a sequence. -/
theorem is_filter_yaml_iff (D : Yaml) :
    is_filter_yaml D = true ↔
      (D.isDict = true ∧ ∃ xs, D.get "keywords" = some (.list xs)) := by
  cases D with
  | map kvs =>
      cases hk : (Yaml.map kvs).get "keywords" with
      | none => simp [is_filter_yaml, Yaml.isDict, hk]
      | some v => cases v <;> simp [is_filter_yaml, Yaml.isDict, hk]
  | null => simp [is_filter_yaml, Yaml.isDict]
  | bool b => simp [is_filter_yaml, Yaml.isDict]
  | int n => simp [is_filter_yaml, Yaml.isDict]
  | str s => simp [is_filter_yaml, Yaml.isDict]
  | list xs => simp [is_filter_yaml, Yaml.isDict]

theorem classify_eq_product_iff (D : Yaml) :
    classify D = .product ↔ is_product_yaml D = true := by
  cases h : is_product_yaml D <;> cases h2 : is_filter_yaml D <;> simp [classify, h, h2]

/-! ## Substring lemmas for `infer_filter_type` -/

theorem leadsWith_append_space :
    ∀ needle : List Char, ' ' ∉ needle →
      ∀ l t : List Char, leadsWith needle (l ++ ' ' :: t) = leadsWith needle l
  | [], _, _, _ => rfl
  | c :: cs, hs, [], t => by
      have hc : c ≠ ' ' := fun h => hs (h ▸ List.mem_cons_self c cs)
      simp [leadsWith, hc]
  | c :: cs, hs, d :: l, t => by
      have hcs : ' ' ∉ cs := fun h => hs (List.mem_cons_of_mem c h)
      simp [leadsWith, leadsWith_append_space cs hcs l t]

theorem occursIn_append_space (needle : List Char) (hs : ' ' ∉ needle)
    (hne : needle ≠ []) :
    ∀ l t : List Char,
      occursIn needle (l ++ ' ' :: t) = (occursIn needle l || occursIn needle t)
  | [], t => by
      rcases hn : needle with _ | ⟨c, cs⟩
      · exact absurd hn hne
      · have hc : c ≠ ' ' := by
          rw [hn] at hs
          exact fun h => hs (h ▸ List.mem_cons_self c cs)
        simp [occursIn, leadsWith, hc]
  | d :: l, t => by
      have h1 := occursIn_append_space needle hs hne l t
      have h2 := leadsWith_append_space needle hs (d :: l) t
      simp only [List.cons_append] at h2 ⊢
      simp [occursIn, h1, h2, Bool.or_assoc]

theorem occursIn_joinSpace (needle : List Char) (hs : ' ' ∉ needle) (hne : needle ≠ []) :
    ∀ parts : List (List Char),
      occursIn needle (joinSpace parts) = parts.any fun part => occursIn needle part
  | [] => by
      rcases hn : needle with _ | ⟨c, cs⟩
      · exact absurd hn hne
      · simp [joinSpace, occursIn, leadsWith]
  | [x] => by simp [joinSpace]
  | x :: y :: rest => by
      simp [joinSpace, occursIn_append_space needle hs hne x (joinSpace (y :: rest)),
            occursIn_joinSpace needle hs hne (y :: rest), Bool.or_assoc]

/-- The haystack search of `infer_filter_type` finds a needle without spaces
exactly when the needle occurs in one of the lowercased path components. -/
theorem occursIn_haystack (needle : List Char) (hs : ' ' ∉ needle) (hne : needle ≠ [])
    (p : FPath) :
    occursIn needle (haystackOf p) = true ↔
      ∃ s ∈ p.components, occursIn needle (lowerChars s) = true := by
  unfold haystackOf
  rw [occursIn_joinSpace needle hs hne]
  simp

/-! ## Child-row table lemmas -/

/-- The alias rows stored for one product id, in table order. -/
def aliasesOf (db : DB) (pid : Nat) : List Yaml :=
  (db.product_aliases.filter fun r => r.1 == pid).map Prod.snd

/-- The fuzzy-pattern rows stored for one product id, in table order. -/
def patternsOf (db : DB) (pid : Nat) : List Yaml :=
  (db.product_fuzzy_patterns.filter fun r => r.1 == pid).map Prod.snd

/-- `aliases or []` on a list value is the list itself (an empty list is
falsy but `[] or []` is again `[]`). -/
theorem truthy_list_or_empty (xs : List Yaml) :
    (if (Yaml.list xs).truthy then Yaml.list xs else Yaml.list []) = Yaml.list xs := by
  cases xs <;> simp [Yaml.truthy]

theorem filter_eq_after_filter_ne (rows : List (Nat × Yaml)) (pid : Nat) :
    ((rows.filter fun r => r.1 != pid).filter fun r => r.1 == pid) = [] := by
  rw [List.filter_filter]
  apply List.filter_eq_nil_iff.mpr
  intro r _
  simp

theorem filter_eq_own_rows (xs : List Yaml) (pid : Nat) :
    ((xs.map fun a => (pid, a)).filter fun r => r.1 == pid) = xs.map fun a => (pid, a) := by
  rw [List.filter_map]
  have h : ((fun (r : Nat × Yaml) => r.1 == pid) ∘ fun a => (pid, a)) = fun _ => true := by
    funext a
    simp
  rw [h, List.filter_true]

/-- After delete-then-insert, the rows of `pid` are exactly the inserted
ones, in insertion order. -/
theorem sync_rows_spec (rows : List (Nat × Yaml)) (pid : Nat) (xs : List Yaml) :
    (((rows.filter fun r => r.1 != pid) ++ xs.map fun a => (pid, a)).filter
        fun r => r.1 == pid).map Prod.snd = xs := by
  rw [List.filter_append, filter_eq_after_filter_ne, filter_eq_own_rows]
  simp

/-- Delete-then-insert is idempotent on the whole table. -/
theorem sync_rows_idem (rows : List (Nat × Yaml)) (pid : Nat) (xs : List Yaml) :
    (((rows.filter fun r => r.1 != pid) ++ xs.map fun a => (pid, a)).filter
        fun r => r.1 != pid) ++ (xs.map fun a => (pid, a))
      = (rows.filter fun r => r.1 != pid) ++ xs.map fun a => (pid, a) := by
  rw [List.filter_append]
  have h1 : ((rows.filter fun r => r.1 != pid).filter fun r => r.1 != pid)
      = rows.filter fun r => r.1 != pid := by
    rw [List.filter_filter]
    simp
  have h2 : ((xs.map fun a => (pid, a)).filter fun r => r.1 != pid) = [] := by
    rw [List.filter_map]
    simp
  rw [h1, h2, List.append_nil]

/-! ## Filter-keyword table lemmas -/

/-- The `(keyword, filter_type)` unique index of `filter_keywords`. -/
def FilterKeysUnique (tbl : List FilterRow) : Prop :=
  ∀ (kw : Yaml) (ft : String), tbl.countP (keywordKeyMatches kw ft) ≤ 1

theorem keywordKeyMatches_update (kw' : Yaml) (ft' : String) (kw : Yaml) (ft : String)
    (desc : Yaml) (r : FilterRow) :
    keywordKeyMatches kw' ft'
        (if keywordKeyMatches kw ft r then { r with description := desc } else r)
      = keywordKeyMatches kw' ft' r := by
  by_cases h : keywordKeyMatches kw ft r = true
  · rw [if_pos h]
    rfl
  · rw [if_neg h]

theorem upsertKeywordRow_countP_hit (kw' : Yaml) (ft' : String) (tbl : List FilterRow)
    (kw : Yaml) (ftype : String) (desc : Yaml)
    (hany : tbl.any (keywordKeyMatches kw ftype) = true) :
    (upsertKeywordRow tbl kw ftype desc).countP (keywordKeyMatches kw' ft')
      = tbl.countP (keywordKeyMatches kw' ft') := by
  unfold upsertKeywordRow
  rw [hany]
  simp only [if_pos rfl, if_true]
  rw [List.countP_map]
  apply List.countP_congr
  intro r _
  rw [Function.comp_apply, keywordKeyMatches_update]

theorem upsertKeywordRow_countP_miss (kw' : Yaml) (ft' : String) (tbl : List FilterRow)
    (kw : Yaml) (ftype : String) (desc : Yaml)
    (hany : tbl.any (keywordKeyMatches kw ftype) = false) :
    (upsertKeywordRow tbl kw ftype desc).countP (keywordKeyMatches kw' ft')
      = tbl.countP (keywordKeyMatches kw' ft')
        + (if keywordKeyMatches kw' ft' ⟨kw, ftype, desc⟩ then 1 else 0) := by
  unfold upsertKeywordRow
  rw [hany]
  simp only [Bool.false_eq_true, if_false, List.countP_append]
  cases hm : keywordKeyMatches kw' ft' ⟨kw, ftype, desc⟩ <;>
    simp [List.countP_cons, hm]

/-- Upserting preserves the unique index. -/
theorem upsertKeywordRow_unique (tbl : List FilterRow) (kw : Yaml) (ftype : String)
    (desc : Yaml) (h : FilterKeysUnique tbl) :
    FilterKeysUnique (upsertKeywordRow tbl kw ftype desc) := by
  intro kw' ft'
  cases hany : tbl.any (keywordKeyMatches kw ftype) with
  | true =>
      rw [upsertKeywordRow_countP_hit kw' ft' tbl kw ftype desc hany]
      exact h kw' ft'
  | false =>
      rw [upsertKeywordRow_countP_miss kw' ft' tbl kw ftype desc hany]
      cases hm : keywordKeyMatches kw' ft' ⟨kw, ftype, desc⟩ with
      | false => simpa [hm] using h kw' ft'
      | true =>
          have hkey : kw' = kw ∧ ft' = ftype := by
            have := of_decide_eq_true hm
            exact ⟨this.1.symm, this.2.symm⟩
          rcases hkey with ⟨rfl, rfl⟩
          have hzero : tbl.countP (keywordKeyMatches kw' ft') = 0 := by
            apply List.countP_eq_zero.mpr
            intro r hr
            exact fun hc => (List.any_eq_false.mp hany) r hr hc
          simp [hzero, hm]

/-- After upserting `(kw, ftype, desc)` into a table satisfying the unique
index, exactly one row matches the key and it carries `desc`. -/
theorem upsertKeywordRow_spec (tbl : List FilterRow) (kw : Yaml) (ftype : String)
    (desc : Yaml) (h : FilterKeysUnique tbl) :
    (upsertKeywordRow tbl kw ftype desc).countP (keywordKeyMatches kw ftype) = 1 ∧
    ∃ r ∈ upsertKeywordRow tbl kw ftype desc,
      keywordKeyMatches kw ftype r = true ∧ r.description = desc := by
  have hself : keywordKeyMatches kw ftype ⟨kw, ftype, desc⟩ = true := by
    simp [keywordKeyMatches]
  cases hany : tbl.any (keywordKeyMatches kw ftype) with
  | true =>
      rcases List.any_eq_true.mp hany with ⟨r0, hr0, hm0⟩
      constructor
      · rw [upsertKeywordRow_countP_hit kw ftype tbl kw ftype desc hany]
        have hpos : 0 < tbl.countP (keywordKeyMatches kw ftype) :=
          List.countP_pos_iff.mpr ⟨r0, hr0, hm0⟩
        have hle := h kw ftype
        omega
      · refine ⟨{ r0 with description := desc }, ?_, ?_, rfl⟩
        · have : r0 ∈ tbl ∧ upsertKeywordRow tbl kw ftype desc = tbl.map
              (fun r => if keywordKeyMatches kw ftype r
                        then { r with description := desc } else r) := by
            exact ⟨hr0, by unfold upsertKeywordRow; rw [hany]; simp⟩
          rw [this.2]
          have := List.mem_map_of_mem
            (fun r => if keywordKeyMatches kw ftype r
                      then { r with description := desc } else r) this.1
          simpa [hm0] using this
        · simpa [keywordKeyMatches] using hm0
  | false =>
      constructor
      · rw [upsertKeywordRow_countP_miss kw ftype tbl kw ftype desc hany]
        have hzero : tbl.countP (keywordKeyMatches kw ftype) = 0 := by
          apply List.countP_eq_zero.mpr
          intro r hr
          exact fun hc => (List.any_eq_false.mp hany) r hr hc
        simp [hzero, hself]
      · refine ⟨⟨kw, ftype, desc⟩, ?_, hself, rfl⟩
        unfold upsertKeywordRow
        rw [hany]
        simp

/-- A row whose keyword differs survives one upsert untouched. -/
theorem upsertKeywordRow_frame (tbl : List FilterRow) (kw : Yaml) (ftype : String)
    (desc : Yaml) (r : FilterRow) (hr : r ∈ tbl) (hne : r.keyword ≠ kw) :
    r ∈ upsertKeywordRow tbl kw ftype desc := by
  have hm : keywordKeyMatches kw ftype r = false := by
    simp [keywordKeyMatches]
    intro h
    exact absurd h hne
  unfold upsertKeywordRow
  cases hany : tbl.any (keywordKeyMatches kw ftype) with
  | true =>
      simp only [if_pos rfl, if_true]
      have := List.mem_map_of_mem
        (fun q => if keywordKeyMatches kw ftype q
                  then { q with description := desc } else q) hr
      simpa [hm] using this
  | false =>
      simp only [Bool.false_eq_true, if_false]
      exact List.mem_append_left _ hr

/-- A row whose keyword is absent from the synced list survives the whole
fold untouched. -/
theorem foldl_upsert_frame (ftype : String) (desc : Yaml) :
    ∀ (kws : List Yaml) (tbl : List FilterRow) (r : FilterRow),
      r ∈ tbl → r.keyword ∉ kws →
      r ∈ kws.foldl (fun t kw => upsertKeywordRow t kw ftype desc) tbl
  | [], _, _, hr, _ => hr
  | kw :: kws, tbl, r, hr, hnin => by
      apply foldl_upsert_frame ftype desc kws _ r
      · exact upsertKeywordRow_frame tbl kw ftype desc r hr
          (fun h => hnin (h ▸ List.mem_cons_self kw kws))
      · exact fun h => hnin (List.mem_cons_of_mem kw h)

/-! ## Products table lemmas -/

/-- The `(brand, model)` unique index of `products`. -/
def ProductKeysUnique (tbl : List ProductRow) : Prop :=
  ∀ (b m : Yaml), tbl.countP (rowKeyMatches b m) ≤ 1

theorem rowKeyMatches_updateRow (b m : Yaml) (now : Nat) (f : ProductFields)
    (q : ProductRow) :
    rowKeyMatches b m (if rowKeyMatches f.brand f.model q
        then applyProductUpdate now f q else q)
      = rowKeyMatches b m q := by
  by_cases h : rowKeyMatches f.brand f.model q = true
  · rw [if_pos h]
    rfl
  · rw [if_neg h]

theorem find?_map_of_pred {α : Type _} (p : α → Bool) (g : α → α)
    (hp : ∀ q, p (g q) = p q) :
    ∀ l : List α, (l.map g).find? p = (l.find? p).map g
  | [] => rfl
  | q :: l => by
      cases hq : p q with
      | true =>
          rw [List.map_cons, List.find?_cons_of_pos _ (by rw [hp]; exact hq),
            List.find?_cons_of_pos _ hq]
          rfl
      | false =>
          rw [List.map_cons,
            List.find?_cons_of_neg _ (by rw [hp, hq]; exact Bool.false_ne_true),
            List.find?_cons_of_neg _ (by rw [hq]; exact Bool.false_ne_true),
            find?_map_of_pred p g hp l]

theorem upsertProductRows_hit (tbl : List ProductRow) (nextId now : Nat)
    (f : ProductFields) (r0 : ProductRow)
    (hfind : tbl.find? (rowKeyMatches f.brand f.model) = some r0) :
    upsertProductRows tbl nextId now f =
      (r0.id,
       tbl.map fun q => if rowKeyMatches f.brand f.model q
                        then applyProductUpdate now f q else q,
       nextId) := by
  unfold upsertProductRows
  rw [hfind]

theorem upsertProductRows_miss (tbl : List ProductRow) (nextId now : Nat)
    (f : ProductFields)
    (hfind : tbl.find? (rowKeyMatches f.brand f.model) = none) :
    upsertProductRows tbl nextId now f =
      (nextId, tbl ++ [newProductRow nextId now f], nextId + 1) := by
  unfold upsertProductRows
  rw [hfind]

theorem rowKeyMatches_newRow (nextId now : Nat) (f : ProductFields) :
    rowKeyMatches f.brand f.model (newProductRow nextId now f) = true := by
  simp [rowKeyMatches, newProductRow]

theorem countP_update_preserved (b m : Yaml) (now : Nat) (f : ProductFields)
    (tbl : List ProductRow) :
    (tbl.map fun q => if rowKeyMatches f.brand f.model q
        then applyProductUpdate now f q else q).countP (rowKeyMatches b m)
      = tbl.countP (rowKeyMatches b m) := by
  rw [List.countP_map]
  apply List.countP_congr
  intro q _
  rw [Function.comp_apply, rowKeyMatches_updateRow]

/-- The upsert preserves the unique index. -/
theorem upsertProductRows_unique (tbl : List ProductRow) (nextId now : Nat)
    (f : ProductFields) (huniq : ProductKeysUnique tbl) :
    ProductKeysUnique (upsertProductRows tbl nextId now f).2.1 := by
  intro b m
  cases hfind : tbl.find? (rowKeyMatches f.brand f.model) with
  | some r0 =>
      rw [upsertProductRows_hit tbl nextId now f r0 hfind]
      dsimp only
      rw [countP_update_preserved]
      exact huniq b m
  | none =>
      rw [upsertProductRows_miss tbl nextId now f hfind]
      dsimp only
      rw [List.countP_append]
      cases hm : rowKeyMatches b m (newProductRow nextId now f) with
      | false => simpa [List.countP_cons, hm] using huniq b m
      | true =>
          have hkeys : (newProductRow nextId now f).brand = b
              ∧ (newProductRow nextId now f).model = m := of_decide_eq_true hm
          have hb : f.brand = b := hkeys.1
          have hmm : f.model = m := hkeys.2
          subst hb
          subst hmm
          have h0 : tbl.countP (rowKeyMatches f.brand f.model) = 0 := by
            apply List.countP_eq_zero.mpr
            intro a ha
            exact (List.find?_eq_none.mp hfind) a ha
          simp [h0, List.countP_cons, hm]

/-- After one upsert over a table satisfying the unique index, exactly one
row matches the key; it carries the upserted values, `updated_at = now`, the
returned id, and either the conflicting row's `created_at` and `id` (update)
or `created_at = now` with the fresh id (insert). -/
theorem upsertProductRows_spec (tbl : List ProductRow) (nextId now : Nat)
    (f : ProductFields) (huniq : ProductKeysUnique tbl) :
    ∃ r, (upsertProductRows tbl nextId now f).2.1.find? (rowKeyMatches f.brand f.model)
          = some r
      ∧ r.brand = f.brand ∧ r.model = f.model
      ∧ r.full_name = f.full_name ∧ r.category = f.category
      ∧ r.buy_price_min = f.buy_min ∧ r.buy_price_max = f.buy_max
      ∧ r.sell_target = f.sell_target ∧ r.active = f.active
      ∧ r.updated_at = now ∧ r.id = (upsertProductRows tbl nextId now f).1
      ∧ (upsertProductRows tbl nextId now f).2.1.countP (rowKeyMatches f.brand f.model) = 1
      ∧ ((∃ r0, tbl.find? (rowKeyMatches f.brand f.model) = some r0
            ∧ r.created_at = r0.created_at ∧ r.id = r0.id)
         ∨ (tbl.find? (rowKeyMatches f.brand f.model) = none
            ∧ r.created_at = now ∧ r.id = nextId)) := by
  cases hfind : tbl.find? (rowKeyMatches f.brand f.model) with
  | none =>
      rw [upsertProductRows_miss tbl nextId now f hfind]
      dsimp only
      have hnew := rowKeyMatches_newRow nextId now f
      refine ⟨newProductRow nextId now f, ?_, rfl, rfl, rfl, rfl, rfl, rfl, rfl, rfl,
        rfl, rfl, ?_, Or.inr ⟨rfl, rfl, rfl⟩⟩
      · rw [List.find?_append, hfind,
          List.find?_cons_of_pos _ hnew]
        rfl
      · rw [List.countP_append]
        have h0 : tbl.countP (rowKeyMatches f.brand f.model) = 0 := by
          apply List.countP_eq_zero.mpr
          intro a ha
          exact (List.find?_eq_none.mp hfind) a ha
        simp [h0, List.countP_cons, hnew]
  | some r0 =>
      have hkey0 : rowKeyMatches f.brand f.model r0 = true := List.find?_some hfind
      have hkeys : r0.brand = f.brand ∧ r0.model = f.model := of_decide_eq_true hkey0
      rw [upsertProductRows_hit tbl nextId now f r0 hfind]
      dsimp only
      have hpred : ∀ q, rowKeyMatches f.brand f.model
          (if rowKeyMatches f.brand f.model q then applyProductUpdate now f q else q)
          = rowKeyMatches f.brand f.model q :=
        fun q => rowKeyMatches_updateRow f.brand f.model now f q
      have hfind' : (tbl.map fun q => if rowKeyMatches f.brand f.model q
            then applyProductUpdate now f q else q).find? (rowKeyMatches f.brand f.model)
          = some (applyProductUpdate now f r0) := by
        rw [find?_map_of_pred _ _ hpred tbl, hfind]
        rw [Option.map_some']
        rw [if_pos hkey0]
      refine ⟨applyProductUpdate now f r0, hfind', hkeys.1, hkeys.2, rfl, rfl, rfl, rfl,
        rfl, rfl, rfl, rfl, ?_, Or.inl ⟨r0, rfl, rfl, rfl⟩⟩
      · rw [countP_update_preserved]
        have hpos : 0 < tbl.countP (rowKeyMatches f.brand f.model) :=
          List.countP_pos_iff.mpr ⟨r0, List.mem_of_find?_eq_some hfind, hkey0⟩
        have hle := huniq f.brand f.model
        omega

/-! ## Field-extraction lemmas -/

theorem lookupKey_some_of_mem (k : String) :
    ∀ kvs : List (String × Yaml), k ∈ kvs.map Prod.fst → ∃ v, lookupKey k kvs = some v
  | [], h => by simp at h
  | (k1, v1) :: rest, h => by
      by_cases hk : k1 = k
      · exact ⟨v1, by simp [lookupKey, hk]⟩
      · have h' : k ∈ (k1, v1).1 :: rest.map Prod.fst := by
          rw [List.map_cons] at h
          exact h
        have hmem : k ∈ rest.map Prod.fst := by
          rcases List.mem_cons.mp h' with heq | hmem
          · exact absurd heq.symm hk
          · exact hmem
        rcases lookupKey_some_of_mem k rest hmem with ⟨v, hv⟩
        exact ⟨v, by simp [lookupKey, hk, hv]⟩

theorem get_some_of_mem_keys (D : Yaml) (k : String) (h : k ∈ D.keys) :
    ∃ v, D.get k = some v := by
  cases D with
  | map kvs => exact lookupKey_some_of_mem k kvs (by simpa [Yaml.keys] using h)
  | null => simp [Yaml.keys] at h
  | bool b => simp [Yaml.keys] at h
  | int n => simp [Yaml.keys] at h
  | str s => simp [Yaml.keys] at h
  | list xs => simp [Yaml.keys] at h

/-- A document passing the product test always yields statement parameters
(`product_data["…"]` cannot raise for it). -/
theorem extract_of_is_product (data : Yaml) (h : is_product_yaml data = true) :
    ∃ f0, extractProductFields data = some f0 := by
  rcases (is_product_yaml_iff data).mp h with ⟨hdict, hkeys, p, hp, hpd, -⟩
  obtain ⟨vb, hvb⟩ := get_some_of_mem_keys data "brand" (hkeys "brand" (by decide))
  obtain ⟨vm, hvm⟩ := get_some_of_mem_keys data "model" (hkeys "model" (by decide))
  obtain ⟨vf, hvf⟩ := get_some_of_mem_keys data "full_name" (hkeys "full_name" (by decide))
  obtain ⟨vc, hvc⟩ := get_some_of_mem_keys data "category" (hkeys "category" (by decide))
  refine ⟨⟨vb, vm, vf, vc, (p.get "buy_min").getD .null, (p.get "buy_max").getD .null,
    (p.get "sell_target").getD .null, (data.get "active").getD (.bool true)⟩, ?_⟩
  unfold extractProductFields
  rw [hvb, hvm, hvf, hvc, hp]
  dsimp only
  rw [if_pos hpd]

theorem is_product_not_null (data : Yaml) (h : is_product_yaml data = true) :
    data ≠ .null := by
  intro hn
  subst hn
  simp [is_product_yaml, Yaml.isDict] at h

/-! ## Loop lemmas -/

/-- If no unhandled exception occurs, the dispatch loop is the plain fold of
the per-file body. -/
theorem processFiles_ok (now : Nat) :
    ∀ (files : List YFile) (st : LoopState),
      (∀ f ∈ files, f.raisesUnhandled = false) →
      processFiles now st files = .ok (files.foldl (processFile now) st)
  | [], st, _ => rfl
  | f :: fs, st, h => by
      have hf : f.raisesUnhandled = false := h f (by simp)
      have ih := processFiles_ok now fs (processFile now st f)
        (fun g hg => h g (by simp [hg]))
      simp [processFiles, hf, ih]

/-- If some file raises an unhandled exception, the dispatch loop escapes
with an exception. -/
theorem processFiles_error (now : Nat) :
    ∀ (files : List YFile) (st : LoopState),
      (∃ f ∈ files, f.raisesUnhandled = true) →
      ∃ st', processFiles now st files = .error st'
  | [], _, h => by simp at h
  | f :: fs, st, h => by
      by_cases hf : f.raisesUnhandled = true
      · exact ⟨st, by simp [processFiles, hf]⟩
      · have : ∃ g ∈ fs, g.raisesUnhandled = true := by
          rcases h with ⟨g, hg, hgr⟩
          rcases List.mem_cons.mp hg with rfl | hmem
          · exact absurd hgr hf
          · exact ⟨g, hmem, hgr⟩
        rcases processFiles_error now fs (processFile now st f) this with ⟨st', hst'⟩
        exact ⟨st', by simp [processFiles, hf, hst']⟩

/-! ## Claims -/

/-- **C10.** A file that parses to the YAML null document gives the same
loader result as a malformed file (`None`), so the main loop counts it as an
error rather than as a skipped/unrecognized file. -/
theorem C10_null_document_is_error :
    (∀ e : Unit, load_yaml_file (.ok .null) = load_yaml_file (.error e))
  ∧ (∀ (now : Nat) (st : LoopState) (f : YFile), f.parse = .ok .null →
      processFile now st f =
        { st with counters := { st.counters with errors := st.counters.errors + 1 } }) := by
  constructor
  · intro e
    rfl
  · intro now st f h
    simp [processFile, load_yaml_file, h]

/-- Witness for C10 at a concrete file. -/
theorem C10_witness :
    (okFile pPath .null).parse = .ok .null ∧
    processFile 0 ⟨emptyDB, Counters.zero, []⟩ (okFile pPath .null) =
      ⟨emptyDB, ⟨0, 0, 0, 1⟩, []⟩ := by
  refine ⟨rfl, ?_⟩
  have h := C10_null_document_is_error.2 0 ⟨emptyDB, Counters.zero, []⟩
    (okFile pPath .null) rfl
  simpa using h

/-- **C1.** Classification yields Product exactly for mappings with all six
required top-level keys whose `pricing` value is a mapping with the three
required pricing subkeys; removing any required top-level key or pricing
subkey makes the product test fail; and a structure passing both the product
and the filter test classifies as Product (the product test runs first). -/
theorem C1_product_classification :
    (∀ D : Yaml, classify D = .product ↔
       (D.isDict = true ∧ (∀ k ∈ required_top, k ∈ D.keys) ∧
        ∃ p, D.get "pricing" = some p ∧ p.isDict = true ∧
          ∀ k ∈ required_pricing, k ∈ p.keys))
  ∧ (∀ (D : Yaml) (k : String), k ∈ required_top →
       is_product_yaml (removeTopKey D k) = false)
  ∧ (∀ (D : Yaml) (k : String), k ∈ required_pricing →
       is_product_yaml (removePricingKey D k) = false)
  ∧ (∀ D : Yaml, is_product_yaml D = true → is_filter_yaml D = true →
       classify D = .product) := by
  refine ⟨?_, ?_, ?_, ?_⟩
  · intro D
    rw [classify_eq_product_iff, is_product_yaml_iff]
  · intro D k hk
    apply Bool.eq_false_iff.mpr
    intro h
    rcases (is_product_yaml_iff _).mp h with ⟨-, hkeys, -⟩
    exact not_mem_keys_removeTopKey D k (hkeys k hk)
  · intro D k hk
    apply Bool.eq_false_iff.mpr
    intro h
    rcases (is_product_yaml_iff _).mp h with ⟨hdict, -, p', hp', hpd', hpkeys⟩
    cases D with
    | map kvs =>
        rw [show removePricingKey (Yaml.map kvs) k
              = .map (kvs.map fun kv =>
                  if kv.1 = "pricing" then (kv.1, removeTopKey kv.2 k) else kv)
            from rfl] at hp'
        rw [show (Yaml.map (kvs.map fun kv =>
              if kv.1 = "pricing" then (kv.1, removeTopKey kv.2 k) else kv)).get "pricing"
              = lookupKey "pricing" (kvs.map fun kv =>
                  if kv.1 = "pricing" then (kv.1, removeTopKey kv.2 k) else kv)
            from rfl] at hp'
        rw [lookupKey_map_modify "pricing" (fun v => removeTopKey v k) kvs] at hp'
        rcases Option.map_eq_some'.mp hp' with ⟨v, -, hgv⟩
        subst hgv
        exact not_mem_keys_removeTopKey v k (hpkeys k hk)
    | null => simp [removePricingKey, Yaml.isDict] at hdict
    | bool b => simp [removePricingKey, Yaml.isDict] at hdict
    | int n => simp [removePricingKey, Yaml.isDict] at hdict
    | str s => simp [removePricingKey, Yaml.isDict] at hdict
    | list xs => simp [removePricingKey, Yaml.isDict] at hdict
  · intro D h _
    simp [classify, h]

/-- Witness for C1: the concrete product document classifies as Product;
dropping `brand` or the `buy_min` subkey defeats the product test; a
document passing both tests classifies as Product. -/
theorem C1_witness :
    classify productDoc = .product ∧
    is_product_yaml (removeTopKey productDoc "brand") = false ∧
    is_product_yaml (removePricingKey productDoc "buy_min") = false ∧
    classify (.map [("brand", .str "b"), ("model", .str "m"),
      ("full_name", .str "f"), ("category", .str "c"),
      ("pricing", .map [("buy_min", .int 1), ("buy_max", .int 2),
                        ("sell_target", .int 3)]),
      ("active", .bool true), ("keywords", .list [])]) = .product := by
  refine ⟨?_, ?_, ?_, ?_⟩
  · exact (C1_product_classification.1 productDoc).mpr
      ⟨rfl, by decide,
       ⟨.map [("buy_min", .int 1000), ("buy_max", .int 1500), ("sell_target", .int 2000)],
        rfl, rfl, by decide⟩⟩
  · exact C1_product_classification.2.1 productDoc "brand" (by decide)
  · exact C1_product_classification.2.2.1 productDoc "buy_min" (by decide)
  · exact C1_product_classification.2.2.2 _ (by decide) (by decide)

/-- **C9 (amended).** Given that the product test fails, classification
yields Filter exactly for mappings whose `keywords` value is a sequence; a
non-null structure failing both tests is counted as skipped, not as an
error (the null document, which also fails both tests, is counted as an
error — see the counterexample). -/
theorem C9_filter_classification :
    (∀ D : Yaml, is_product_yaml D = false →
       (classify D = .filter ↔
         (D.isDict = true ∧ ∃ xs, D.get "keywords" = some (.list xs))))
  ∧ (∀ (now : Nat) (st : LoopState) (f : YFile) (data : Yaml),
       f.parse = .ok data → data ≠ .null →
       is_product_yaml data = false → is_filter_yaml data = false →
       processFile now st f =
         { st with counters := { st.counters with skipped := st.counters.skipped + 1 },
                   log := st.log ++ [.skippedUnknownSchema f.path] }) := by
  constructor
  · intro D h
    rw [← is_filter_yaml_iff]
    cases hf : is_filter_yaml D <;> simp [classify, h, hf]
  · intro now st f data hparse hnull hprod hfilt
    simp [processFile, load_yaml_file, hparse, hnull, hprod, hfilt]

/-- Counterexample to C9 as stated: the null document fails both tests, yet
the main loop counts it as an error rather than as a skipped file. -/
theorem C9_counterexample :
    is_product_yaml .null = false ∧ is_filter_yaml .null = false ∧
    (processFile 0 ⟨emptyDB, Counters.zero, []⟩ (okFile pPath .null)).counters.skipped = 0 ∧
    (processFile 0 ⟨emptyDB, Counters.zero, []⟩ (okFile pPath .null)).counters.errors = 1 := by
  refine ⟨rfl, rfl, rfl, rfl⟩

/-- Witness for C9: a mapping with a list `keywords` (failing the product
test) classifies as Filter; a non-null unknown mapping is skipped. -/
theorem C9_witness :
    classify filterDoc = .filter ∧
    processFile 0 ⟨emptyDB, Counters.zero, []⟩ (okFile pPath (.map [("foo", .int 1)])) =
      ⟨emptyDB, ⟨0, 0, 1, 0⟩, [.skippedUnknownSchema pPath]⟩ := by
  constructor
  · exact (C9_filter_classification.1 filterDoc rfl).mpr
      ⟨rfl, ⟨[.str "broken", .str "spares"], rfl⟩⟩
  · have h := C9_filter_classification.2 0 ⟨emptyDB, Counters.zero, []⟩
      (okFile pPath (.map [("foo", .int 1)])) (.map [("foo", .int 1)])
      rfl (by decide) rfl rfl
    simpa using h

/-- **C2.** Filter-type inference returns `"reject"` exactly when `reject`
occurs case-insensitively in the file's own name or in the name of any
ancestor directory, even if `boost` also appears; `"boost"` when `boost`
appears but `reject` does not; and no type otherwise, in which case a
filter-classified file is counted as skipped rather than synced. -/
theorem C2_filter_type_inference :
    (∀ p : FPath,
       (infer_filter_type p = some "reject" ↔
          ∃ s ∈ p.components, occursIn "reject".data (lowerChars s) = true)
     ∧ (infer_filter_type p = some "boost" ↔
          ((∀ s ∈ p.components, occursIn "reject".data (lowerChars s) = false) ∧
           ∃ s ∈ p.components, occursIn "boost".data (lowerChars s) = true))
     ∧ (infer_filter_type p = none ↔
          ((∀ s ∈ p.components, occursIn "reject".data (lowerChars s) = false) ∧
           ∀ s ∈ p.components, occursIn "boost".data (lowerChars s) = false)))
  ∧ (∀ (now : Nat) (st : LoopState) (f : YFile) (data : Yaml),
       f.parse = .ok data → data ≠ .null →
       is_product_yaml data = false → is_filter_yaml data = true →
       infer_filter_type f.path = none →
       processFile now st f =
         { st with counters := { st.counters with skipped := st.counters.skipped + 1 },
                   log := st.log ++ [.skippedFilterUnknownType f.path] }) := by
  constructor
  · intro p
    have hr := occursIn_haystack "reject".data (by decide) (by decide) p
    have hb := occursIn_haystack "boost".data (by decide) (by decide) p
    cases hcr : occursIn "reject".data (haystackOf p) with
    | true =>
        have hex := hr.mp hcr
        have hinf : infer_filter_type p = some "reject" := by
          simp [infer_filter_type, hcr]
        refine ⟨?_, ?_, ?_⟩
        · simp [hinf, hex]
        · rw [hinf]
          simp only [Option.some.injEq]
          constructor
          · intro h
            exact absurd h (by decide)
          · rintro ⟨hall, -⟩
            rcases hex with ⟨s, hsm, hocc⟩
            rw [hall s hsm] at hocc
            exact absurd hocc (by decide)
        · rw [hinf]
          constructor
          · intro h
            exact absurd h (by simp)
          · rintro ⟨hall, -⟩
            rcases hex with ⟨s, hsm, hocc⟩
            rw [hall s hsm] at hocc
            exact absurd hocc (by decide)
    | false =>
        have hallr : ∀ s ∈ p.components, occursIn "reject".data (lowerChars s) = false := by
          intro s hsm
          cases hx : occursIn "reject".data (lowerChars s) with
          | false => rfl
          | true => exact absurd (hr.mpr ⟨s, hsm, hx⟩) (by simp [hcr])
        cases hcb : occursIn "boost".data (haystackOf p) with
        | true =>
            have hexb := hb.mp hcb
            have hinf : infer_filter_type p = some "boost" := by
              simp [infer_filter_type, hcr, hcb]
            refine ⟨?_, ?_, ?_⟩
            · rw [hinf]
              simp only [Option.some.injEq]
              constructor
              · intro h
                exact absurd h (by decide)
              · rintro ⟨s, hsm, hocc⟩
                rw [hallr s hsm] at hocc
                exact absurd hocc (by decide)
            · simp only [hinf, Option.some.injEq, true_iff]
              exact ⟨hallr, hexb⟩
            · rw [hinf]
              constructor
              · intro h
                exact absurd h (by simp)
              · rintro ⟨-, hallb⟩
                rcases hexb with ⟨s, hsm, hocc⟩
                rw [hallb s hsm] at hocc
                exact absurd hocc (by decide)
        | false =>
            have hallb : ∀ s ∈ p.components, occursIn "boost".data (lowerChars s) = false := by
              intro s hsm
              cases hx : occursIn "boost".data (lowerChars s) with
              | false => rfl
              | true => exact absurd (hb.mpr ⟨s, hsm, hx⟩) (by simp [hcb])
            have hinf : infer_filter_type p = none := by
              simp [infer_filter_type, hcr, hcb]
            refine ⟨?_, ?_, ?_⟩
            · rw [hinf]
              constructor
              · intro h
                exact absurd h (by simp)
              · rintro ⟨s, hsm, hocc⟩
                rw [hallr s hsm] at hocc
                exact absurd hocc (by decide)
            · rw [hinf]
              constructor
              · intro h
                exact absurd h (by simp)
              · rintro ⟨-, s, hsm, hocc⟩
                rw [hallb s hsm] at hocc
                exact absurd hocc (by decide)
            · simp only [hinf, true_iff]
              exact ⟨hallr, hallb⟩
  · intro now st f data hparse hnull hprod hfilt hinfer
    simp [processFile, load_yaml_file, hparse, hnull, hprod, hfilt, hinfer]

/-- Witness for C2 at concrete paths: `reject` in an ancestor directory wins
over `boost` in the filename; `boost` alone infers boost; neither infers no
type and the filter file is skipped. -/
theorem C2_witness :
    infer_filter_type ⟨"camera_boost.yml", ["REJECTED", "Products", ""]⟩ = some "reject" ∧
    infer_filter_type ⟨"tele_boost.yml", ["filters", "Products", ""]⟩ = some "boost" ∧
    infer_filter_type ⟨"plain.yml", ["filters", "Products", ""]⟩ = none ∧
    processFile 0 ⟨emptyDB, Counters.zero, []⟩
        (okFile ⟨"plain.yml", ["filters", "Products", ""]⟩ filterDoc) =
      ⟨emptyDB, ⟨0, 0, 1, 0⟩,
       [.skippedFilterUnknownType ⟨"plain.yml", ["filters", "Products", ""]⟩]⟩ := by
  refine ⟨?_, ?_, ?_, ?_⟩
  · exact ((C2_filter_type_inference.1 ⟨"camera_boost.yml", ["REJECTED", "Products", ""]⟩).1).mpr
      ⟨"REJECTED", by simp [FPath.components], by decide⟩
  · exact ((C2_filter_type_inference.1 ⟨"tele_boost.yml", ["filters", "Products", ""]⟩).2.1).mpr
      ⟨by decide, "tele_boost.yml", by simp [FPath.components], by decide⟩
  · exact ((C2_filter_type_inference.1 ⟨"plain.yml", ["filters", "Products", ""]⟩).2.2).mpr
      ⟨by decide, by decide⟩
  · have h := C2_filter_type_inference.2 0 ⟨emptyDB, Counters.zero, []⟩
      (okFile ⟨"plain.yml", ["filters", "Products", ""]⟩ filterDoc) filterDoc
      rfl (by decide) rfl rfl (by decide)
    simpa using h

/-- **C4.** Syncing a child collection (aliases or fuzzy patterns) leaves
the stored rows for that product exactly the input list in input order,
regardless of prior contents; an empty or absent (`None`) list deletes all
prior children; the sync is idempotent on the whole database. -/
theorem C4_child_sync_wholesale_replacement :
    (∀ (db : DB) (pid : Nat) (L : List String),
       aliasesOf (sync_aliases false db pid (.list (L.map .str))).1 pid = L.map .str)
  ∧ (∀ (db : DB) (pid : Nat),
       aliasesOf (sync_aliases false db pid .null).1 pid = [])
  ∧ (∀ (db : DB) (pid : Nat) (L : List String),
       sync_aliases false (sync_aliases false db pid (.list (L.map .str))).1 pid
           (.list (L.map .str))
         = sync_aliases false db pid (.list (L.map .str)))
  ∧ (∀ (db : DB) (pid : Nat) (L : List String),
       patternsOf (sync_fuzzy_patterns false db pid (.list (L.map .str))).1 pid
         = L.map .str)
  ∧ (∀ (db : DB) (pid : Nat),
       patternsOf (sync_fuzzy_patterns false db pid .null).1 pid = [])
  ∧ (∀ (db : DB) (pid : Nat) (L : List String),
       sync_fuzzy_patterns false (sync_fuzzy_patterns false db pid (.list (L.map .str))).1
           pid (.list (L.map .str))
         = sync_fuzzy_patterns false db pid (.list (L.map .str))) := by
  refine ⟨?_, ?_, ?_, ?_, ?_, ?_⟩
  · intro db pid L
    simp only [sync_aliases, aliasesOf, Bool.false_eq_true, if_false,
      truthy_list_or_empty, Yaml.iterate]
    exact sync_rows_spec db.product_aliases pid (L.map .str)
  · intro db pid
    simp only [sync_aliases, aliasesOf, Bool.false_eq_true, if_false,
      Yaml.truthy, Yaml.iterate, List.append_nil, List.map_nil]
    rw [filter_eq_after_filter_ne]
    rfl
  · intro db pid L
    simp only [sync_aliases, Bool.false_eq_true, if_false,
      truthy_list_or_empty, Yaml.iterate]
    rw [sync_rows_idem]
  · intro db pid L
    simp only [sync_fuzzy_patterns, patternsOf, Bool.false_eq_true, if_false,
      truthy_list_or_empty, Yaml.iterate]
    exact sync_rows_spec db.product_fuzzy_patterns pid (L.map .str)
  · intro db pid
    simp only [sync_fuzzy_patterns, patternsOf, Bool.false_eq_true, if_false,
      Yaml.truthy, Yaml.iterate, List.append_nil, List.map_nil]
    rw [filter_eq_after_filter_ne]
    rfl
  · intro db pid L
    simp only [sync_fuzzy_patterns, Bool.false_eq_true, if_false,
      truthy_list_or_empty, Yaml.iterate]
    rw [sync_rows_idem]

/-- Witness for C4: syncing `[A, B]` over a table with old rows leaves
exactly `[A, B]`; then syncing `[]` leaves zero rows; re-syncing is
idempotent. -/
theorem C4_witness :
    aliasesOf (sync_aliases false
        { emptyDB with product_aliases := [(1, .str "old"), (2, .str "keep")] } 1
        (.list [.str "A", .str "B"])).1 1 = [.str "A", .str "B"] ∧
    aliasesOf (sync_aliases false (sync_aliases false
        { emptyDB with product_aliases := [(1, .str "old"), (2, .str "keep")] } 1
        (.list [.str "A", .str "B"])).1 1 (.list [])).1 1 = [] ∧
    sync_aliases false (sync_aliases false
        { emptyDB with product_aliases := [(1, .str "old"), (2, .str "keep")] } 1
        (.list [.str "A", .str "B"])).1 1 (.list [.str "A", .str "B"])
      = sync_aliases false
        { emptyDB with product_aliases := [(1, .str "old"), (2, .str "keep")] } 1
        (.list [.str "A", .str "B"]) ∧
    patternsOf (sync_fuzzy_patterns false emptyDB 1 (.list [.str "P"])).1 1
      = [.str "P"] := by
  refine ⟨?_, ?_, ?_, ?_⟩
  · exact C4_child_sync_wholesale_replacement.1
      { emptyDB with product_aliases := [(1, .str "old"), (2, .str "keep")] } 1 ["A", "B"]
  · exact C4_child_sync_wholesale_replacement.1 _ 1 []
  · exact C4_child_sync_wholesale_replacement.2.2.1
      { emptyDB with product_aliases := [(1, .str "old"), (2, .str "keep")] } 1 ["A", "B"]
  · exact C4_child_sync_wholesale_replacement.2.2.2.1 emptyDB 1 ["P"]

/-- Evaluating `sync_filter_keywords` on a one-keyword file: one upsert with
the file's `description or ""`. -/
theorem sync_single_keyword (db : DB) (ftype : String) (kw d : Yaml) :
    (sync_filter_keywords false db
        (.map [("keywords", .list [kw]), ("description", d)]) ftype).1
      = { db with filter_keywords :=
            (upsertKeywordRow db.filter_keywords kw ftype
              (if d.truthy then d else .str "")) } := by
  simp [sync_filter_keywords, Yaml.get, lookupKey, Yaml.truthy, Yaml.iterate]

theorem filter_keywords_set (db : DB) (t : List FilterRow) :
    ({ db with filter_keywords := t } : DB).filter_keywords = t := rfl

/-- **C5.** Each filter keyword is upserted independently keyed on
`(keyword, filter_type)`: re-syncing an existing keyword with a new
(truthy) description leaves exactly one matching row carrying the new
description; and no deletion ever occurs — every stored row whose keyword is
absent from the input survives the sync unchanged. -/
theorem C5_keyword_upsert_no_deletion :
    (∀ (db : DB) (ftype : String) (kw dX dY : Yaml),
       FilterKeysUnique db.filter_keywords → dY.truthy = true →
       ((sync_filter_keywords false
           (sync_filter_keywords false db
             (.map [("keywords", .list [kw]), ("description", dX)]) ftype).1
           (.map [("keywords", .list [kw]), ("description", dY)]) ftype).1.filter_keywords.countP
             (keywordKeyMatches kw ftype) = 1 ∧
        ∃ r ∈ (sync_filter_keywords false
           (sync_filter_keywords false db
             (.map [("keywords", .list [kw]), ("description", dX)]) ftype).1
           (.map [("keywords", .list [kw]), ("description", dY)]) ftype).1.filter_keywords,
          keywordKeyMatches kw ftype r = true ∧ r.description = dY))
  ∧ (∀ (db : DB) (fdata : Yaml) (ftype : String) (kws : List Yaml) (r : FilterRow),
       fdata.get "keywords" = some (.list kws) →
       r ∈ db.filter_keywords → r.keyword ∉ kws →
       r ∈ ((sync_filter_keywords false db fdata ftype).1).filter_keywords) := by
  constructor
  · intro db ftype kw dX dY huniq htr
    rw [sync_single_keyword, sync_single_keyword, filter_keywords_set, filter_keywords_set]
    have h1 := upsertKeywordRow_unique db.filter_keywords kw ftype
      (if dX.truthy then dX else .str "") huniq
    have h2 := upsertKeywordRow_spec
      (upsertKeywordRow db.filter_keywords kw ftype (if dX.truthy then dX else .str ""))
      kw ftype dY h1
    rw [if_pos htr]
    exact h2
  · intro db fdata ftype kws r hget hr hnin
    unfold sync_filter_keywords
    rw [hget]
    simp only [Bool.false_eq_true, if_false, Option.getD_some]
    cases kws with
    | nil =>
        simp only [Yaml.truthy, List.isEmpty_nil, Bool.not_true, Bool.false_eq_true,
          if_false, Yaml.iterate]
        simpa [List.foldl] using hr
    | cons kw0 kws0 =>
        simp only [Yaml.truthy, List.isEmpty_cons, Bool.not_false, if_true, Yaml.iterate]
        exact foldl_upsert_frame ftype _ (kw0 :: kws0) db.filter_keywords r hr hnin

/-- A table holding one keyword row, for the C5 frame witness. -/
def frameDB : DB :=
  { emptyDB with filter_keywords := [⟨.str "old", "boost", .str "D"⟩] }

/-- Witness for C5: upserting `("telephoto", "boost")` with description X
then Y leaves exactly one matching row with description Y; a stored row for
a keyword absent from the synced file survives. -/
theorem C5_witness :
    ((sync_filter_keywords false
        (sync_filter_keywords false emptyDB
          (.map [("keywords", .list [.str "telephoto"]), ("description", .str "X")])
          "boost").1
        (.map [("keywords", .list [.str "telephoto"]), ("description", .str "Y")])
        "boost").1.filter_keywords.countP
          (keywordKeyMatches (.str "telephoto") "boost") = 1 ∧
     ∃ r ∈ (sync_filter_keywords false
        (sync_filter_keywords false emptyDB
          (.map [("keywords", .list [.str "telephoto"]), ("description", .str "X")])
          "boost").1
        (.map [("keywords", .list [.str "telephoto"]), ("description", .str "Y")])
        "boost").1.filter_keywords,
       keywordKeyMatches (.str "telephoto") "boost" r = true ∧
         r.description = .str "Y") ∧
    (⟨.str "old", "boost", .str "D"⟩ : FilterRow) ∈
      ((sync_filter_keywords false frameDB filterDoc "boost").1).filter_keywords := by
  constructor
  · have hu : FilterKeysUnique emptyDB.filter_keywords := by
      intro kw ft
      simp [emptyDB]
    exact C5_keyword_upsert_no_deletion.1 emptyDB "boost"
      (.str "telephoto") (.str "X") (.str "Y") hu rfl
  · exact C5_keyword_upsert_no_deletion.2 frameDB
      filterDoc "boost" [.str "broken", .str "spares"]
      ⟨.str "old", "boost", .str "D"⟩ rfl (by simp [frameDB]) (by decide)

/-- **C3.** Upserting two product records with the same `(brand, model)` and
different non-identity fields, in sequence, leaves exactly one matching row
in `products` (no duplicate); it carries the latest full_name, category,
pricing fields and active flag, its `updated_at` is bumped to the second
call's timestamp, and its brand, model, `created_at` and id are unchanged
from the row left by the first upsert. -/
theorem C3_product_upsert_no_duplicate (db : DB) (now1 now2 : Nat) (d1 d2 : Yaml)
    (f1 f2 : ProductFields)
    (h1 : extractProductFields d1 = some f1)
    (h2 : extractProductFields d2 = some f2)
    (hb : f1.brand = f2.brand) (hm : f1.model = f2.model)
    (_hdiff : f1.full_name ≠ f2.full_name ∨ f1.category ≠ f2.category ∨
        f1.buy_min ≠ f2.buy_min ∨ f1.buy_max ≠ f2.buy_max ∨
        f1.sell_target ≠ f2.sell_target ∨ f1.active ≠ f2.active)
    (huniq : ProductKeysUnique db.products) :
    ∃ pid1 db1 pid2 db2 r1 r2,
      upsert_product false db now1 d1 = (some pid1, db1, none) ∧
      upsert_product false db1 now2 d2 = (some pid2, db2, none) ∧
      db1.products.find? (rowKeyMatches f2.brand f2.model) = some r1 ∧
      db2.products.find? (rowKeyMatches f2.brand f2.model) = some r2 ∧
      db2.products.countP (rowKeyMatches f2.brand f2.model) = 1 ∧
      r2.full_name = f2.full_name ∧ r2.category = f2.category ∧
      r2.buy_price_min = f2.buy_min ∧ r2.buy_price_max = f2.buy_max ∧
      r2.sell_target = f2.sell_target ∧ r2.active = f2.active ∧
      r2.updated_at = now2 ∧
      r2.brand = r1.brand ∧ r2.model = r1.model ∧
      r2.created_at = r1.created_at ∧ r2.id = r1.id ∧ pid2 = pid1 := by
  rcases hrows1 : upsertProductRows db.products db.nextId now1 f1 with ⟨pid1, tbl1, nid1⟩
  have hup1 : upsert_product false db now1 d1
      = (some pid1, { db with products := tbl1, nextId := nid1 }, none) := by
    simp only [upsert_product, h1, hrows1, Bool.false_eq_true, if_false]
  have hspec1 := upsertProductRows_spec db.products db.nextId now1 f1 huniq
  rw [hrows1] at hspec1
  dsimp only at hspec1
  rcases hspec1 with ⟨r1, hfind1, hb1, hm1, -, -, -, -, -, -, -, hid1, -, -⟩
  have huniq1 : ProductKeysUnique tbl1 := by
    have h := upsertProductRows_unique db.products db.nextId now1 f1 huniq
    rw [hrows1] at h
    exact h
  rcases hrows2 : upsertProductRows tbl1 nid1 now2 f2 with ⟨pid2, tbl2, nid2⟩
  have hup2 : upsert_product false ({ db with products := tbl1, nextId := nid1 }) now2 d2
      = (some pid2, { db with products := tbl2, nextId := nid2 }, none) := by
    simp only [upsert_product, h2, Bool.false_eq_true, if_false]
    rw [hrows2]
  have hspec2 := upsertProductRows_spec tbl1 nid1 now2 f2 huniq1
  rw [hrows2] at hspec2
  dsimp only at hspec2
  rcases hspec2 with ⟨r2, hfind2, hb2, hm2, hfn2, hcat2, hmin2, hmax2, hst2, hact2,
    hupd2, hid2, hcnt2, hdisj⟩
  rw [hb, hm] at hfind1
  rw [hb] at hb1
  rw [hm] at hm1
  have hleft : r2.created_at = r1.created_at ∧ r2.id = r1.id := by
    rcases hdisj with ⟨r0, hfr0, hc, hi⟩ | ⟨hnone, -, -⟩
    · rw [hfind1] at hfr0
      injection hfr0 with hr0
      subst hr0
      exact ⟨hc, hi⟩
    · rw [hfind1] at hnone
      exact absurd hnone (by simp)
  refine ⟨pid1, { db with products := tbl1, nextId := nid1 }, pid2,
    { db with products := tbl2, nextId := nid2 }, r1, r2,
    hup1, hup2, hfind1, hfind2, hcnt2, hfn2, hcat2, hmin2, hmax2, hst2, hact2, hupd2,
    ?_, ?_, hleft.1, hleft.2, ?_⟩
  · rw [hb2, hb1]
  · rw [hm2, hm1]
  · rw [← hid2, hleft.2, hid1]

/-- A second revision of the same `(brand, model)` with different
non-identity fields. -/
def productDoc2 : Yaml := .map
  [("brand", .str "Canon"), ("model", .str "R5"),
   ("full_name", .str "Canon EOS R5 Mark II"), ("category", .str "camera"),
   ("pricing", .map [("buy_min", .int 1100), ("buy_max", .int 1600),
                     ("sell_target", .int 2100)]),
   ("active", .bool false)]

def productFields1 : ProductFields :=
  ⟨.str "Canon", .str "R5", .str "Canon EOS R5", .str "camera",
   .int 1000, .int 1500, .int 2000, .bool true⟩

def productFields2 : ProductFields :=
  ⟨.str "Canon", .str "R5", .str "Canon EOS R5 Mark II", .str "camera",
   .int 1100, .int 1600, .int 2100, .bool false⟩

/-- Witness for C3 at two concrete revisions of the same product over the
empty database. -/
theorem C3_witness :
    ∃ pid1 db1 pid2 db2 r1 r2,
      upsert_product false emptyDB 1 productDoc = (some pid1, db1, none) ∧
      upsert_product false db1 2 productDoc2 = (some pid2, db2, none) ∧
      db1.products.find? (rowKeyMatches productFields2.brand productFields2.model)
        = some r1 ∧
      db2.products.find? (rowKeyMatches productFields2.brand productFields2.model)
        = some r2 ∧
      db2.products.countP (rowKeyMatches productFields2.brand productFields2.model) = 1 ∧
      r2.full_name = productFields2.full_name ∧ r2.category = productFields2.category ∧
      r2.buy_price_min = productFields2.buy_min ∧
      r2.buy_price_max = productFields2.buy_max ∧
      r2.sell_target = productFields2.sell_target ∧ r2.active = productFields2.active ∧
      r2.updated_at = 2 ∧
      r2.brand = r1.brand ∧ r2.model = r1.model ∧
      r2.created_at = r1.created_at ∧ r2.id = r1.id ∧ pid2 = pid1 :=
  C3_product_upsert_no_duplicate emptyDB 1 2 productDoc productDoc2
    productFields1 productFields2 rfl rfl rfl rfl (Or.inl (by decide))
    (by intro b m; simp [emptyDB])

/-- A product file whose alias-sync statement raises a storage error. -/
def aliasFailFile : YFile := ⟨pPath, .ok productDoc, false, true, false, false, false⟩

/-- Counterexample to C6 as stated: a storage write error raised during the
alias sync of a product is caught and logged, but it is NOT counted in the
run's error counter — the product still counts as synced. -/
theorem C6_counterexample :
    aliasFailFile.aliasFails = true ∧
    (processFile 0 ⟨emptyDB, Counters.zero, []⟩ aliasFailFile).counters.errors = 0 ∧
    (processFile 0 ⟨emptyDB, Counters.zero, []⟩ aliasFailFile).counters.products_synced = 1 ∧
    (processFile 0 ⟨emptyDB, Counters.zero, []⟩ aliasFailFile).log
      = [.aliasSyncError 1,
         .syncedProduct (.str "Canon") (.str "R5") pPath] := by
  refine ⟨rfl, ?_, ?_, ?_⟩ <;> rfl

/-- **C6 (amended).** A storage write error during a product upsert is
caught at the record's boundary, logged with brand and model, counted in the
error counter, and no identity is returned, so the alias and fuzzy-pattern
syncs are skipped; storage write errors during the child syncs (aliases,
fuzzy patterns) or the filter-keyword sync are likewise caught at the
record's boundary and logged with identifying context (product id, filter
type) and processing continues — but they are not counted in the error
counter: the product still counts as synced and the keyword count is still
added to the synced tally. -/
theorem C6_storage_error_handling :
    (∀ (now : Nat) (st : LoopState) (f : YFile) (data : Yaml),
       f.parse = .ok data → is_product_yaml data = true → f.upsertFails = true →
       processFile now st f =
         { db := st.db,
           counters := { st.counters with errors := st.counters.errors + 1 },
           log := st.log ++ [.upsertProductError (data.get "brand") (data.get "model")] })
  ∧ (∀ (now : Nat) (st : LoopState) (f : YFile) (data : Yaml) (pid : Nat) (dbU : DB),
       f.parse = .ok data → is_product_yaml data = true →
       f.upsertFails = false → f.aliasFails = true → f.fuzzyFails = true →
       upsert_product false st.db now data = (some pid, dbU, none) → pid ≠ 0 →
       processFile now st f =
         { db := dbU,
           counters := { st.counters with
             products_synced := st.counters.products_synced + 1 },
           log := st.log ++ [.aliasSyncError pid, .fuzzySyncError pid,
             .syncedProduct ((data.get "brand").getD .null)
               ((data.get "model").getD .null) f.path] })
  ∧ (∀ (now : Nat) (st : LoopState) (f : YFile) (data : Yaml) (ftype : String),
       f.parse = .ok data → data ≠ .null →
       is_product_yaml data = false → is_filter_yaml data = true →
       infer_filter_type f.path = some ftype → f.keywordFails = true →
       processFile now st f =
         { db := st.db,
           counters := { st.counters with
             filter_keywords_synced := st.counters.filter_keywords_synced
               + keywordListLen data },
           log := st.log ++ [.keywordSyncError ftype,
             .syncedKeywords ftype (keywordListLen data) f.path] }) := by
  refine ⟨?_, ?_, ?_⟩
  · intro now st f data hparse hprod hfail
    have hnull := is_product_not_null data hprod
    obtain ⟨f0, hf0⟩ := extract_of_is_product data hprod
    simp [processFile, load_yaml_file, hparse, hnull, hprod, hfail,
      upsert_product, hf0]
  · intro now st f data pid dbU hparse hprod hnofail hafail hffail hup hpid
    have hnull := is_product_not_null data hprod
    simp [processFile, load_yaml_file, hparse, hnull, hprod, hnofail, hup, hpid,
      hafail, hffail, sync_aliases, sync_fuzzy_patterns]
  · intro now st f data ftype hparse hnull hprod hfilt hinfer hkfail
    simp [processFile, load_yaml_file, hparse, hnull, hprod, hfilt, hinfer, hkfail,
      sync_filter_keywords]

/-- Witness for C6 at concrete files: an upsert failure counts as an error
and skips the child syncs; a child-sync failure leaves the error counter at
zero; a keyword-sync failure still adds the keyword count to the tally. -/
theorem C6_witness :
    processFile 0 ⟨emptyDB, Counters.zero, []⟩
        ⟨pPath, .ok productDoc, true, false, false, false, false⟩ =
      ⟨emptyDB, ⟨0, 0, 0, 1⟩,
       [.upsertProductError (some (.str "Canon")) (some (.str "R5"))]⟩ ∧
    processFile 0 ⟨emptyDB, Counters.zero, []⟩
        ⟨pPath, .ok productDoc, false, true, true, false, false⟩ =
      ⟨⟨[⟨1, .str "Canon", .str "R5", .str "Canon EOS R5", .str "camera",
          .int 1000, .int 1500, .int 2000, .bool true, 0, 0⟩], [], [], [], 2⟩,
       ⟨1, 0, 0, 0⟩,
       [.aliasSyncError 1, .fuzzySyncError 1,
        .syncedProduct (.str "Canon") (.str "R5") pPath]⟩ ∧
    processFile 0 ⟨emptyDB, Counters.zero, []⟩
        ⟨rejectPath, .ok filterDoc, false, false, false, true, false⟩ =
      ⟨emptyDB, ⟨0, 2, 0, 0⟩,
       [.keywordSyncError "reject", .syncedKeywords "reject" 2 rejectPath]⟩ := by
  refine ⟨?_, ?_, ?_⟩
  · have h := C6_storage_error_handling.1 0 ⟨emptyDB, Counters.zero, []⟩
      ⟨pPath, .ok productDoc, true, false, false, false, false⟩ productDoc rfl rfl rfl
    simpa using h
  · have h := C6_storage_error_handling.2.1 0 ⟨emptyDB, Counters.zero, []⟩
      ⟨pPath, .ok productDoc, false, true, true, false, false⟩ productDoc 1
      ⟨[⟨1, .str "Canon", .str "R5", .str "Canon EOS R5", .str "camera",
         .int 1000, .int 1500, .int 2000, .bool true, 0, 0⟩], [], [], [], 2⟩
      rfl rfl rfl rfl rfl rfl (by decide)
    simpa using h
  · have h := C6_storage_error_handling.2.2 0 ⟨emptyDB, Counters.zero, []⟩
      ⟨rejectPath, .ok filterDoc, false, false, false, true, false⟩ filterDoc "reject"
      rfl (by decide) rfl rfl (by decide) rfl
    simpa using h

/-- **C8.** A missing (or empty) connection string exits non-zero before any
work; a missing root directory exits before any work with status 0; normal
completion with zero files found commits nothing and exits 0. -/
theorem C8_config_errors_fatal :
    (∀ (cfg : RunConfig) (db0 : DB) (now : Nat), strTruthy cfg.databaseUrl = false →
        runScript cfg db0 now = ⟨1, db0, Counters.zero, []⟩)
  ∧ (∀ (cfg : RunConfig) (db0 : DB) (now : Nat), strTruthy cfg.databaseUrl = true →
        cfg.rootExists = false →
        runScript cfg db0 now = ⟨0, db0, Counters.zero, []⟩)
  ∧ (∀ (cfg : RunConfig) (db0 : DB) (now : Nat), strTruthy cfg.databaseUrl = true →
        cfg.rootExists = true → cfg.connectOk = true → cfg.files = [] →
        runScript cfg db0 now = ⟨0, db0, Counters.zero, []⟩) := by
  refine ⟨?_, ?_, ?_⟩
  · intro cfg db0 now h
    simp [runScript, h]
  · intro cfg db0 now h1 h2
    simp [runScript, h1, h2]
  · intro cfg db0 now h1 h2 h3 h4
    simp [runScript, h1, h2, h3, h4, processFiles]

/-- Witness for C8 at concrete configurations. -/
theorem C8_witness :
    runScript ⟨none, true, true, []⟩ emptyDB 0 = ⟨1, emptyDB, Counters.zero, []⟩ ∧
    runScript ⟨some "", true, true, []⟩ emptyDB 0 = ⟨1, emptyDB, Counters.zero, []⟩ ∧
    runScript ⟨some "postgres://db", false, true, []⟩ emptyDB 0
      = ⟨0, emptyDB, Counters.zero, []⟩ ∧
    runScript ⟨some "postgres://db", true, true, []⟩ emptyDB 0
      = ⟨0, emptyDB, Counters.zero, []⟩ := by
  refine ⟨?_, ?_, ?_, ?_⟩
  · exact C8_config_errors_fatal.1 ⟨none, true, true, []⟩ emptyDB 0 rfl
  · exact C8_config_errors_fatal.1 ⟨some "", true, true, []⟩ emptyDB 0 rfl
  · exact C8_config_errors_fatal.2.1 ⟨some "postgres://db", false, true, []⟩ emptyDB 0 rfl rfl
  · exact C8_config_errors_fatal.2.2 ⟨some "postgres://db", true, true, []⟩ emptyDB 0 rfl rfl rfl rfl

/-- **C7.** Individually caught per-file errors never trigger a rollback:
with no unhandled exception the run commits the full staged state and exits
0, whatever the per-file failure flags were; an unhandled exception escaping
the dispatch loop rolls the database back to its initial state (discarding
files that had succeeded earlier in the run) and exits non-zero. -/
theorem C7_commit_or_rollback :
    (∀ (cfg : RunConfig) (db0 : DB) (now : Nat), strTruthy cfg.databaseUrl = true →
        cfg.rootExists = true → cfg.connectOk = true →
        (∀ f ∈ cfg.files, f.raisesUnhandled = false) →
        runScript cfg db0 now =
          ⟨0, (cfg.files.foldl (processFile now) ⟨db0, Counters.zero, []⟩).db,
              (cfg.files.foldl (processFile now) ⟨db0, Counters.zero, []⟩).counters,
              (cfg.files.foldl (processFile now) ⟨db0, Counters.zero, []⟩).log⟩)
  ∧ (∀ (cfg : RunConfig) (db0 : DB) (now : Nat), strTruthy cfg.databaseUrl = true →
        cfg.rootExists = true → cfg.connectOk = true →
        (∃ f ∈ cfg.files, f.raisesUnhandled = true) →
        (runScript cfg db0 now).exitCode = 1 ∧ (runScript cfg db0 now).db = db0) := by
  constructor
  · intro cfg db0 now h1 h2 h3 h4
    have h := processFiles_ok now cfg.files ⟨db0, Counters.zero, []⟩ h4
    simp [runScript, h1, h2, h3, h]
  · intro cfg db0 now h1 h2 h3 h4
    rcases processFiles_error now cfg.files ⟨db0, Counters.zero, []⟩ h4 with ⟨st', hst'⟩
    simp [runScript, h1, h2, h3, hst']

/-- Witness for C7: a run with one successfully processed product file and a
caught alias-sync storage error still commits (exit 0); a run whose single
file raises an unhandled exception rolls back and exits 1. -/
theorem C7_witness :
    (runScript ⟨some "postgres://db", true, true,
        [⟨pPath, .ok productDoc, false, true, false, false, false⟩]⟩ emptyDB 5).exitCode = 0 ∧
    (runScript ⟨some "postgres://db", true, true,
        [⟨pPath, .ok productDoc, false, false, false, false, true⟩]⟩ emptyDB 5).exitCode = 1 ∧
    (runScript ⟨some "postgres://db", true, true,
        [⟨pPath, .ok productDoc, false, false, false, false, true⟩]⟩ emptyDB 5).db = emptyDB := by
  have h1 := C7_commit_or_rollback.1 ⟨some "postgres://db", true, true,
    [⟨pPath, .ok productDoc, false, true, false, false, false⟩]⟩ emptyDB 5
    rfl rfl rfl (by decide)
  have h2 := C7_commit_or_rollback.2 ⟨some "postgres://db", true, true,
    [⟨pPath, .ok productDoc, false, false, false, false, true⟩]⟩ emptyDB 5
    rfl rfl rfl ⟨⟨pPath, .ok productDoc, false, false, false, false, true⟩, by simp, rfl⟩
  exact ⟨by rw [h1], h2.1, h2.2⟩
